import Mathlib

/-!
Shallow embedding of the edge-geometry engine of the networkTopology
repository, together with theorems checking the specification claims.

Coordinates are modelled as rationals (`ℚ`) wherever the source only uses
field arithmetic and comparisons, and as reals (`ℝ`) where the source uses
Math.atan2 / Math.sin / Math.cos.  JavaScript number fields that the code
resolves with fallback chains (positionAbsolute ?? position ?? 0,
measured ?? {width: 0, height: 0}) are modelled as already-resolved fields.
SVG path strings built from M/L commands are modelled structurally as lists
of commands, since only their geometric content matters.
-/

namespace NetTopo

/-- Constant LABEL_DISTANCE from src/utils/edge/constants.ts. -/
def LABEL_DISTANCE : ℚ := 40

/-- Constant MIN_LABEL_DISTANCE from src/utils/edge/constants.ts. -/
def MIN_LABEL_DISTANCE : ℚ := 20

/-- Constant MIN_EDGE_SPACING from src/utils/edge/constants.ts. -/
def MIN_EDGE_SPACING : ℚ := 2

/-- Constant MAX_EDGE_SPACING from src/utils/edge/constants.ts. -/
def MAX_EDGE_SPACING : ℚ := 8

/-- Constant MIN_ANGLE_DISTANCE from src/utils/edge/constants.ts. -/
def MIN_ANGLE_DISTANCE : ℚ := 20

/-- A 2-D point with rational coordinates (XYPosition / EdgeOffset in the source). -/
structure Point where
  x : ℚ
  y : ℚ
deriving DecidableEq, Repr

/-- A 2-D point with real coordinates, for the trigonometric code paths. -/
structure RPoint where
  x : ℝ
  y : ℝ

/-- EdgeOffsets record from src/utils/types/edge.types.ts: one offset for each end. -/
structure EdgeOffsets where
  sourceOffset : Point
  targetOffset : Point
deriving DecidableEq, Repr

/-- EdgeOffsets with real components, produced by the atan2-based offset code. -/
structure REdgeOffsets where
  sourceOffset : RPoint
  targetOffset : RPoint

/-- EdgeDirection from src/utils/types/edge.types.ts. -/
inductive EdgeDirection where
  | right
  | left
  | top
  | bottom
deriving DecidableEq, Repr

/-- Direction string as it appears in the edgeType suffix (data.edgeType.split('-')[1]). -/
def EdgeDirection.str : EdgeDirection → String
  | .right => "right"
  | .left => "left"
  | .top => "top"
  | .bottom => "bottom"

/-- An @xyflow/react Edge as the geometry code reads it: id, source node id,
target node id, and the optional data.edgeType string. -/
structure Edge where
  id : String
  source : String
  target : String
  edgeType : Option String
deriving DecidableEq, Repr

/-- An @xyflow/react node as the geometry code reads it: id, resolved absolute
position (positionAbsolute ?? position ?? 0) and resolved measured size
(measured ?? 0). -/
structure Node where
  id : String
  x : ℚ
  y : ℚ
  width : ℚ
  height : ℚ
deriving DecidableEq, Repr

/-- JavaScript Array.prototype.findIndex: index of the first match, -1 when none.
List.findIdx returns the length when nothing matches, which is the not-found case. -/
def jsFindIndex (p : α → Bool) (l : List α) : ℤ :=
  if l.findIdx p < l.length then (l.findIdx p : ℤ) else -1

/-- Signed slot of the edge at a given index among count parallel edges:
index - centerIndex with centerIndex = (count - 1) / 2, exactly the
(edgeIndex - centerIndex) subterm of calculateParallelOffset and
calculate90DegreeOffset in src/utils/edge/parallelEdges.ts. -/
def signedSlot (index : ℚ) (count : ℕ) : ℚ :=
  index - ((count : ℚ) - 1) / 2

/-! ### pathCalculation.ts -/

/-- canCreate90DegreeAngle from src/utils/edge/pathCalculation.ts: directional
clearance test with strict inequalities against MIN_ANGLE_DISTANCE. -/
def canCreate90DegreeAngle (sourceX sourceY targetX targetY : ℚ)
    (direction : EdgeDirection) : Bool :=
  match direction with
  | .right => decide (targetX > sourceX + MIN_ANGLE_DISTANCE)
  | .left => decide (targetX < sourceX - MIN_ANGLE_DISTANCE)
  | .top => decide (targetY < sourceY - MIN_ANGLE_DISTANCE)
  | .bottom => decide (targetY > sourceY + MIN_ANGLE_DISTANCE)

/-- One SVG path command; the source emits M (move) and L (line) commands as
strings, modelled structurally here. -/
inductive PathCmd where
  | move (x y : ℚ)
  | line (x y : ℚ)
deriving DecidableEq, Repr

/-- An SVG path, as the ordered list of its commands. -/
abbrev SvgPath := List PathCmd

/-- calculate90DegreePath from src/utils/edge/pathCalculation.ts: applies the
offsets (x || 0 is x for numeric x), checks feasibility, then emits the
two-segment path; null (for an infeasible direction) is modelled as none. -/
def calculate90DegreePath (sourceX sourceY targetX targetY : ℚ)
    (direction : EdgeDirection) (sourceOffset targetOffset : Point) :
    Option SvgPath :=
  let sx := sourceX + sourceOffset.x
  let sy := sourceY + sourceOffset.y
  let tx := targetX + targetOffset.x
  let ty := targetY + targetOffset.y
  if canCreate90DegreeAngle sx sy tx ty direction then
    match direction with
    | .right | .left => some [.move sx sy, .line tx sy, .line tx ty]
    | .top | .bottom => some [.move sx sy, .line sx ty, .line tx ty]
  else
    none

/-- Modelled from the spec: getStraightPath is the @xyflow/react library helper
(not part of this repository); per the spec a Straight path is a direct line,
two commands (move, line), between the two points. -/
def getStraightPath (sourceX sourceY targetX targetY : ℚ) : SvgPath :=
  [.move sourceX sourceY, .line targetX targetY]

/-! ### labelPosition.ts -/

/-- A pair of label anchor points, near the source and near the target. -/
structure LabelPositions where
  source : Point
  target : Point
deriving DecidableEq, Repr

/-- calculateStepLabelPositions from src/utils/edge/labelPosition.ts. -/
def calculateStepLabelPositions (sourceX sourceY targetX targetY : ℚ) :
    LabelPositions :=
  let middlePoint := (targetY - sourceY) / 2
  let isConjusted := decide (middlePoint < LABEL_DISTANCE + 15)
  let delta := if isConjusted then middlePoint else LABEL_DISTANCE
  let isOpposite := decide (targetY - sourceY < MIN_LABEL_DISTANCE)
  { source := ⟨sourceX, sourceY + (if isOpposite then MIN_LABEL_DISTANCE else delta)⟩
    target := ⟨targetX, targetY - (if isOpposite then MIN_LABEL_DISTANCE else delta)⟩ }

/-! ### overlapDetection.ts -/

/-- The source/target lists of the overlap result. -/
structure EdgeOverlapLists where
  source : List Edge
  target : List Edge
deriving DecidableEq, Repr

/-- EdgeOverlapResult from src/utils/types/edge.types.ts; counts is flattened
into the two fields countsSource and countsTarget. -/
structure EdgeOverlapResult where
  hasOverlap : Bool
  overlappingEdges : EdgeOverlapLists
  countsSource : ℕ
  countsTarget : ℕ
deriving DecidableEq, Repr

/-- detectOverlappingEdges from src/utils/edge/overlapDetection.ts.  The
source's reduce over edges appends, in order, every edge other than the
current one whose source (resp. target) is nodeId; that is a filter.  The
optional edgeType parameter (undefined when absent) is an Option; a present
edgeType keeps only edges with data.edgeType equal to it. -/
def detectOverlappingEdges (nodeId currentEdgeId : String) (edges : List Edge)
    (edgeType : Option String) : EdgeOverlapResult :=
  let bySource := edges.filter fun e => e.id != currentEdgeId && e.source == nodeId
  let byTarget := edges.filter fun e => e.id != currentEdgeId && e.target == nodeId
  let typeOk := fun (e : Edge) =>
    match edgeType with
    | none => true
    | some t => e.edgeType == some t
  let overlappingSource := bySource.filter typeOk
  let overlappingTarget := byTarget.filter typeOk
  { hasOverlap := decide (0 < overlappingSource.length) || decide (0 < overlappingTarget.length)
    overlappingEdges := ⟨overlappingSource, overlappingTarget⟩
    countsSource := overlappingSource.length
    countsTarget := overlappingTarget.length }

/-! ### parallelEdges.ts, calculate90DegreeOffset (no trigonometry) -/

/-- The edges sharing the given source node id, the sourceEdges filter inside
calculate90DegreeOffset in src/utils/edge/parallelEdges.ts. -/
def sourceEdgesOf (source : Node) (edges : List Edge) : List Edge :=
  edges.filter fun e => e.source == source.id

/-- calculate90DegreeOffset from src/utils/edge/parallelEdges.ts: spreads edges
sharing one source node, with the halved spacing budget, offsetting vertically
for horizontal runs (or explicit right/left direction) and horizontally
otherwise.  The (edgeIndex - centerIndex) subterm is signedSlot. -/
def calculate90DegreeOffset (source target : Node) (edgeId : String)
    (edges : List Edge) (direction : EdgeDirection) : EdgeOffsets :=
  let sourceEdges := sourceEdgesOf source edges
  if sourceEdges.length ≤ 1 then
    ⟨⟨0, 0⟩, ⟨0, 0⟩⟩
  else
    let edgeIndex := jsFindIndex (fun e => e.id == edgeId) sourceEdges
    let totalEdges := sourceEdges.length
    let baseSpacing := max (MAX_EDGE_SPACING / 2 - (totalEdges : ℚ)) MIN_EDGE_SPACING
    let offset := signedSlot (edgeIndex : ℚ) totalEdges * baseSpacing
    let dx := target.x - source.x
    let dy := target.y - source.y
    let isHorizontal := decide (|dx| > |dy|)
    if isHorizontal || direction == .right || direction == .left then
      ⟨⟨0, offset⟩, ⟨0, offset⟩⟩
    else
      ⟨⟨offset, 0⟩, ⟨offset, 0⟩⟩

/-! ### edgeUtils.ts (the named, center-based version) -/

/-- getNodeCenter from src/utils/edgeUtils.ts. -/
def getNodeCenter (node : Node) : Point :=
  ⟨node.x + node.width / 2, node.y + node.height / 2⟩

/-- Coordinate fields of the record returned by getEdgeParams.  The sourcePos
and targetPos classification fields (computed by getEdgePosition through
atan2) are omitted: no claim refers to them and the FloatingEdge path
computation destructures only sx, sy, tx, ty. -/
structure EdgeParams where
  sx : ℚ
  sy : ℚ
  tx : ℚ
  ty : ℚ
deriving DecidableEq, Repr

/-- getEdgeParams from src/utils/edgeUtils.ts: this (current, named) version
draws the floating edge from the node centers. -/
def getEdgeParams (source target : Node) : EdgeParams :=
  let sourceCenter := getNodeCenter source
  let targetCenter := getNodeCenter target
  { sx := sourceCenter.x
    sy := sourceCenter.y
    tx := targetCenter.x
    ty := targetCenter.y }

/-! ### getNodeIntersection, diamond-projection version (part_007) -/

/-- getNodeIntersection, diamond-projection version (the superseded
intersection-based edgeUtils file): projects the ray between the shifted
positions onto the rectangle boundary.  When both nodes have the same
positionAbsolute, the JavaScript computes a = 1/0 = Infinity and then
Infinity * 0 = NaN coordinates; that degenerate outcome is modelled as
none. -/
def getNodeIntersection (intersectionNode targetNode : Node) : Option Point :=
  let w := intersectionNode.width / 2
  let h := intersectionNode.height / 2
  let x2 := intersectionNode.x + w
  let y2 := intersectionNode.y + h
  let x1 := targetNode.x + w
  let y1 := targetNode.y + h
  let xx1 := (x1 - x2) / (2 * w) - (y1 - y2) / (2 * h)
  let yy1 := (x1 - x2) / (2 * w) + (y1 - y2) / (2 * h)
  if |xx1| + |yy1| = 0 then
    none
  else
    let a := 1 / (|xx1| + |yy1|)
    let xx3 := a * xx1
    let yy3 := a * yy1
    some ⟨w * (xx3 + yy3) + x2, h * (-xx3 + yy3) + y2⟩

/-! ### Rectangle predicates for the boundary-containment claims -/

/-- The point (px, py) lies strictly inside the bounding rectangle of the node. -/
def insideRectStrict (px py : ℚ) (n : Node) : Prop :=
  n.x < px ∧ px < n.x + n.width ∧ n.y < py ∧ py < n.y + n.height

/-- The point (px, py) lies on the perimeter of the bounding rectangle of the
node: within the closed box and on one of its four edge lines. -/
def onRectPerimeter (px py : ℚ) (n : Node) : Prop :=
  (n.x ≤ px ∧ px ≤ n.x + n.width ∧ n.y ≤ py ∧ py ≤ n.y + n.height) ∧
    (px = n.x ∨ px = n.x + n.width ∨ py = n.y ∨ py = n.y + n.height)

instance (px py : ℚ) (n : Node) : Decidable (insideRectStrict px py n) := by
  unfold insideRectStrict
  infer_instance

instance (px py : ℚ) (n : Node) : Decidable (onRectPerimeter px py n) := by
  unfold onRectPerimeter
  infer_instance

/-! ### FloatingEdge (part_019): angle-path computation and warning dedup -/

/-- Key of the warning-dedup record in FloatingEdge.showWarningOnce:
the template string id-direction. -/
def warningKey (id direction : String) : String :=
  id ++ "-" ++ direction

/-- showWarningOnce from the FloatingEdge component: the warningShownRef
dictionary is modelled as the list of keys already set to true; the Bool
result records whether console.warn fired on this call. -/
def showWarningOnce (id direction : String) (shown : List String) :
    Bool × List String :=
  let key := warningKey id direction
  if key ∈ shown then
    (false, shown)
  else
    (true, key :: shown)

/-- One render pass of FloatingEdge's useLayoutEffect for an angle-direction
edgeType: take the edge parameters, add the 90-degree shared-source offsets,
try the two-segment path, and on failure warn once and fall back to the
straight path between the offset endpoints.  Returns the path, whether a
warning was emitted, and the updated dedup state. -/
def renderPass (sourceNode targetNode : Node) (id : String) (edges : List Edge)
    (direction : EdgeDirection) (shown : List String) :
    SvgPath × Bool × List String :=
  let p := getEdgeParams sourceNode targetNode
  let off := calculate90DegreeOffset sourceNode targetNode id edges direction
  let sourceX := p.sx + off.sourceOffset.x
  let sourceY := p.sy + off.sourceOffset.y
  let targetX := p.tx + off.targetOffset.x
  let targetY := p.ty + off.targetOffset.y
  match calculate90DegreePath sourceX sourceY targetX targetY direction
      off.sourceOffset off.targetOffset with
  | some anglePath => (anglePath, false, shown)
  | none =>
    let w := showWarningOnce id direction.str shown
    (getStraightPath sourceX sourceY targetX targetY, w.1, w.2)

/-- Repeated render passes of the same connector instance (fixed id), each with
its own node positions, edge list and direction, threading the dedup state;
returns the list of warning keys emitted, in order, and the final state. -/
def runPasses (id : String)
    (passes : List (Node × Node × List Edge × EdgeDirection))
    (shown : List String) : List String × List String :=
  match passes with
  | [] => ([], shown)
  | (s, t, es, d) :: rest =>
    let r := renderPass s t id es d shown
    let tail := runPasses id rest r.2.2
    ((if r.2.1 then [warningKey id d.str] else []) ++ tail.1, tail.2)

/-! ### Trigonometric code paths -/

/-- Math.atan2(y, x), the angle of the vector (x, y), as the argument of the
complex number x + y*i; Complex.arg has exactly the atan2 conventions,
including atan2(0, 0) = 0. -/
noncomputable def atan2 (y x : ℝ) : ℝ :=
  Complex.arg ⟨x, y⟩

/-- The parallelEdges filter inside calculateParallelOffset in
src/utils/edge/parallelEdges.ts: edges joining the same unordered pair of
node ids, in either direction. -/
def parallelEdgesOf (source target : Node) (edges : List Edge) : List Edge :=
  edges.filter fun e =>
    (e.source == source.id && e.target == target.id) ||
      (e.source == target.id && e.target == source.id)

/-- calculateParallelOffset from src/utils/edge/parallelEdges.ts: fans the
parallel edges between one pair of nodes out along the perpendicular of the
line between the node positions.  The (edgeIndex - centerIndex) subterm is
signedSlot. -/
noncomputable def calculateParallelOffset (source target : Node) (edgeId : String)
    (edges : List Edge) : REdgeOffsets :=
  let parallelEdges := parallelEdgesOf source target edges
  if parallelEdges.length ≤ 1 then
    ⟨⟨0, 0⟩, ⟨0, 0⟩⟩
  else
    let dx := (target.x : ℝ) - (source.x : ℝ)
    let dy := (target.y : ℝ) - (source.y : ℝ)
    let angle := atan2 dy dx
    let edgeIndex := jsFindIndex (fun e => e.id == edgeId) parallelEdges
    let baseSpacing := max (MAX_EDGE_SPACING - (parallelEdges.length : ℚ)) MIN_EDGE_SPACING
    let offset := ((signedSlot (edgeIndex : ℚ) parallelEdges.length * baseSpacing : ℚ) : ℝ)
    let perpX := Real.sin angle * offset
    let perpY := -Real.cos angle * offset
    ⟨⟨perpX, perpY⟩, ⟨perpX, perpY⟩⟩

/-- getNodeIntersection, atan2-based version (the superseded edgeUtils file
that intersects the ray between centers with the inscribed ellipse):
center + (cos angle * width / 2, sin angle * height / 2). -/
noncomputable def getNodeIntersectionAtan2 (node target : Node) : RPoint :=
  let width := (node.width : ℝ)
  let height := (node.height : ℝ)
  let centerX := (node.x : ℝ) + width / 2
  let centerY := (node.y : ℝ) + height / 2
  let targetCenterX := (target.x : ℝ) + (target.width : ℝ) / 2
  let targetCenterY := (target.y : ℝ) + (target.height : ℝ) / 2
  let dx := targetCenterX - centerX
  let dy := targetCenterY - centerY
  let angle := atan2 dy dx
  ⟨centerX + Real.cos angle * width / 2, centerY + Real.sin angle * height / 2⟩

/-- Top-center point of a node's bounding box, the point the spec's degenerate
fallback names, with real coordinates. -/
noncomputable def topCenter (node : Node) : RPoint :=
  ⟨(node.x : ℝ) + (node.width : ℝ) / 2, (node.y : ℝ)⟩

/-! ### Claim C3: 90-degree feasibility threshold -/

/-- C3 counterexample: at exactly 20 units of separation in the requested
direction the feasibility check returns false, where the claim predicts
true (the code compares with strict inequality against MIN_ANGLE_DISTANCE). -/
theorem c3_twenty_units_is_infeasible :
    canCreate90DegreeAngle 0 0 20 0 EdgeDirection.right = false := by
  simp only [canCreate90DegreeAngle]
  exact decide_eq_false (by norm_num [MIN_ANGLE_DISTANCE])

/-- C3 amended: canCreate90DegreeAngle returns true exactly when the
directional clearance strictly exceeds the 20-unit MIN_ANGLE_DISTANCE
threshold; in particular it is false at 19 and at exactly 20 units of
separation and true at 21. -/
theorem c3_feasibility_iff_strict_clearance :
    (∀ sx sy tx ty : ℚ,
      (canCreate90DegreeAngle sx sy tx ty EdgeDirection.right = true ↔
        sx + MIN_ANGLE_DISTANCE < tx) ∧
      (canCreate90DegreeAngle sx sy tx ty EdgeDirection.left = true ↔
        tx < sx - MIN_ANGLE_DISTANCE) ∧
      (canCreate90DegreeAngle sx sy tx ty EdgeDirection.top = true ↔
        ty < sy - MIN_ANGLE_DISTANCE) ∧
      (canCreate90DegreeAngle sx sy tx ty EdgeDirection.bottom = true ↔
        sy + MIN_ANGLE_DISTANCE < ty)) ∧
    canCreate90DegreeAngle 0 0 19 0 EdgeDirection.right = false ∧
    canCreate90DegreeAngle 0 0 20 0 EdgeDirection.right = false ∧
    canCreate90DegreeAngle 0 0 21 0 EdgeDirection.right = true := by
  refine ⟨fun sx sy tx ty => ⟨?_, ?_, ?_, ?_⟩,
    by simp only [canCreate90DegreeAngle]; exact decide_eq_false (by norm_num [MIN_ANGLE_DISTANCE]),
    by simp only [canCreate90DegreeAngle]; exact decide_eq_false (by norm_num [MIN_ANGLE_DISTANCE]),
    by simp only [canCreate90DegreeAngle]; exact decide_eq_true (by norm_num [MIN_ANGLE_DISTANCE])⟩ <;>
    simp [canCreate90DegreeAngle]

/-! ### Claim C9: feasibility ignores the perpendicular axis -/

/-- C9: for directions right and left the feasibility check does not depend on
either y coordinate, and for top and bottom it does not depend on either x
coordinate. -/
theorem c9_feasibility_ignores_perpendicular_axis :
    (∀ sx tx sy sy2 ty ty2 : ℚ,
      canCreate90DegreeAngle sx sy tx ty EdgeDirection.right =
        canCreate90DegreeAngle sx sy2 tx ty2 EdgeDirection.right ∧
      canCreate90DegreeAngle sx sy tx ty EdgeDirection.left =
        canCreate90DegreeAngle sx sy2 tx ty2 EdgeDirection.left) ∧
    (∀ sy ty sx sx2 tx tx2 : ℚ,
      canCreate90DegreeAngle sx sy tx ty EdgeDirection.top =
        canCreate90DegreeAngle sx2 sy tx2 ty EdgeDirection.top ∧
      canCreate90DegreeAngle sx sy tx ty EdgeDirection.bottom =
        canCreate90DegreeAngle sx2 sy tx2 ty EdgeDirection.bottom) :=
  ⟨fun _ _ _ _ _ _ => ⟨rfl, rfl⟩, fun _ _ _ _ _ _ => ⟨rfl, rfl⟩⟩

/-! ### Claim C5: step label placement in cramped layouts -/

/-- C5 counterexample: with source and target 10 units apart vertically the
step label anchors sit 20 units from each endpoint (the MIN_LABEL_DISTANCE
clamp, overshooting past the other endpoint), not the claimed 5 = half gap. -/
theorem c5_ten_unit_gap_clamps_to_twenty :
    calculateStepLabelPositions 0 0 0 10 = ⟨⟨0, 20⟩, ⟨0, -10⟩⟩ ∧
      calculateStepLabelPositions 0 0 0 10 ≠ ⟨⟨0, 5⟩, ⟨0, 5⟩⟩ := by
  constructor <;>
    norm_num [calculateStepLabelPositions, LABEL_DISTANCE, MIN_LABEL_DISTANCE]

/-- C5 amended: whenever the signed vertical gap targetY - sourceY is below
MIN_LABEL_DISTANCE (20) — as with the 10-unit scenario — the offset is the
20-unit minimum clamp, so the source anchor is at sourceY + 20 and the target
anchor at targetY - 20; the half-gap rule applies only to larger gaps. -/
theorem c5_small_gap_uses_min_label_distance (sourceX sourceY targetX targetY : ℚ)
    (h : targetY - sourceY < MIN_LABEL_DISTANCE) :
    calculateStepLabelPositions sourceX sourceY targetX targetY =
      ⟨⟨sourceX, sourceY + MIN_LABEL_DISTANCE⟩, ⟨targetX, targetY - MIN_LABEL_DISTANCE⟩⟩ := by
  simp [calculateStepLabelPositions, h]

/-- C5 witness: the amended rule evaluated on the concrete 10-unit scenario. -/
theorem c5_small_gap_witness :
    (10 : ℚ) - 0 < MIN_LABEL_DISTANCE ∧
      calculateStepLabelPositions 0 0 0 10 =
        ⟨⟨0, 0 + MIN_LABEL_DISTANCE⟩, ⟨0, 10 - MIN_LABEL_DISTANCE⟩⟩ :=
  ⟨by norm_num [MIN_LABEL_DISTANCE],
    c5_small_gap_uses_min_label_distance 0 0 0 10 (by norm_num [MIN_LABEL_DISTANCE])⟩

/-! ### Claim C10: overlap detection -/

/-- C10: detectOverlappingEdges never lists the current edge id in either
match list, hasOverlap is true exactly when one of the lists is non-empty,
and the counts are the lengths of the lists. -/
theorem c10_overlap_result_well_formed (nodeId currentEdgeId : String)
    (edges : List Edge) (edgeType : Option String) :
    ((detectOverlappingEdges nodeId currentEdgeId edges edgeType).overlappingEdges.source.all
      (fun e => e.id != currentEdgeId) = true) ∧
    ((detectOverlappingEdges nodeId currentEdgeId edges edgeType).overlappingEdges.target.all
      (fun e => e.id != currentEdgeId) = true) ∧
    ((detectOverlappingEdges nodeId currentEdgeId edges edgeType).hasOverlap = true ↔
      (detectOverlappingEdges nodeId currentEdgeId edges edgeType).overlappingEdges.source ≠ [] ∨
      (detectOverlappingEdges nodeId currentEdgeId edges edgeType).overlappingEdges.target ≠ []) ∧
    (detectOverlappingEdges nodeId currentEdgeId edges edgeType).countsSource =
      (detectOverlappingEdges nodeId currentEdgeId edges edgeType).overlappingEdges.source.length ∧
    (detectOverlappingEdges nodeId currentEdgeId edges edgeType).countsTarget =
      (detectOverlappingEdges nodeId currentEdgeId edges edgeType).overlappingEdges.target.length := by
  refine ⟨?_, ?_, ?_, rfl, rfl⟩
  · simp only [detectOverlappingEdges, List.all_eq_true, List.mem_filter, Bool.and_eq_true]
    exact fun e he => he.1.2.1
  · simp only [detectOverlappingEdges, List.all_eq_true, List.mem_filter, Bool.and_eq_true]
    exact fun e he => he.1.2.1
  · simp only [detectOverlappingEdges, Bool.or_eq_true, decide_eq_true_eq,
      List.length_pos, ← List.isEmpty_iff, List.isEmpty_iff]

/-! ### Claim C1: boundary containment -/

/-- Helper identity behind the diamond projection: the normalizer
used by getNodeIntersection equals twice the larger normalized component. -/
lemma abs_sub_add_abs_add (u v : ℚ) : |u - v| + |u + v| = 2 * max |u| |v| := by
  rcases abs_cases u with ⟨hu1, hu2⟩ | ⟨hu1, hu2⟩ <;>
    rcases abs_cases v with ⟨hv1, hv2⟩ | ⟨hv1, hv2⟩ <;>
    rcases abs_cases (u - v) with ⟨h1, h1l⟩ | ⟨h1, h1l⟩ <;>
    rcases abs_cases (u + v) with ⟨h2, h2l⟩ | ⟨h2, h2l⟩ <;>
    rcases max_cases |u| |v| with ⟨hm, hml⟩ | ⟨hm, hml⟩ <;>
    linarith

/-- Concrete node at the origin, 100 wide and 60 tall. -/
def nodeA : Node := ⟨"A", 0, 0, 100, 60⟩

/-- Concrete node 200 units to the right of nodeA, same size. -/
def nodeB : Node := ⟨"B", 200, 0, 100, 60⟩

/-- C1 counterexample: the connector endpoint the current getEdgeParams
computes on nodeA toward nodeB is nodeA's center (50, 30), which is strictly
interior to nodeA's 100 x 60 bounding rectangle and not on its perimeter,
although both measured dimensions are positive. -/
theorem c1_center_endpoint_strictly_interior :
    getEdgeParams nodeA nodeB = ⟨50, 30, 250, 30⟩ ∧
      insideRectStrict 50 30 nodeA ∧ ¬ onRectPerimeter 50 30 nodeA := by
  refine ⟨?_, ?_, ?_⟩
  · norm_num [getEdgeParams, getNodeCenter, nodeA, nodeB]
  · norm_num [insideRectStrict, nodeA]
  · norm_num [onRectPerimeter, nodeA]

/-- C1 amended: the diamond-projection getNodeIntersection does place the
endpoint exactly on the fromNode's rectangle perimeter whenever the node has
positive width and height and the two node positions differ; the currently
used center-based getEdgeParams instead returns the node center, which is
strictly interior. -/
theorem c1_diamond_intersection_on_perimeter (n t : Node)
    (hw : 0 < n.width) (hh : 0 < n.height) (hne : t.x ≠ n.x ∨ t.y ≠ n.y) :
    ∃ p : Point, getNodeIntersection n t = some p ∧ onRectPerimeter p.x p.y n := by
  have hW : n.width ≠ 0 := ne_of_gt hw
  have hH : n.height ≠ 0 := ne_of_gt hh
  set dx := t.x - n.x with hdx
  set dy := t.y - n.y with hdy
  set u := dx / n.width with hu
  set v := dy / n.height with hv
  have hne2 : u ≠ 0 ∨ v ≠ 0 := by
    rcases hne with h | h
    · exact Or.inl (div_ne_zero (sub_ne_zero.mpr h) hW)
    · exact Or.inr (div_ne_zero (sub_ne_zero.mpr h) hH)
  set s := |u - v| + |u + v| with hs
  have hmax : s = 2 * max |u| |v| := abs_sub_add_abs_add u v
  have hmaxpos : 0 < max |u| |v| := by
    rcases hne2 with h | h
    · exact lt_of_lt_of_le (abs_pos.mpr h) (le_max_left _ _)
    · exact lt_of_lt_of_le (abs_pos.mpr h) (le_max_right _ _)
  have hspos : 0 < s := by rw [hmax]; linarith
  have hsne : s ≠ 0 := ne_of_gt hspos
  have hsu : 2 * |u| ≤ s := by
    rw [hmax]
    have := le_max_left |u| |v|
    linarith
  have hsv : 2 * |v| ≤ s := by
    rw [hmax]
    have := le_max_right |u| |v|
    linarith
  have e1 : (t.x + n.width / 2 - (n.x + n.width / 2)) / (2 * (n.width / 2)) -
      (t.y + n.height / 2 - (n.y + n.height / 2)) / (2 * (n.height / 2)) = u - v := by
    rw [hu, hv, hdx, hdy]
    field_simp
    ring
  have e2 : (t.x + n.width / 2 - (n.x + n.width / 2)) / (2 * (n.width / 2)) +
      (t.y + n.height / 2 - (n.y + n.height / 2)) / (2 * (n.height / 2)) = u + v := by
    rw [hu, hv, hdx, hdy]
    field_simp
    ring
  have hval : getNodeIntersection n t =
      some ⟨n.x + n.width / 2 + n.width * u / s, n.y + n.height / 2 + n.height * v / s⟩ := by
    simp only [getNodeIntersection]
    rw [e1, e2, ← hs, if_neg hsne]
    refine congrArg some ?_
    refine Point.mk.injEq .. ▸ ?_
    constructor
    · field_simp
      ring
    · field_simp
      ring
  have hxabs : |n.width * u / s| ≤ n.width / 2 := by
    rw [abs_div, abs_mul, abs_of_pos hw, abs_of_pos hspos, div_le_iff₀ hspos]
    nlinarith
  have hyabs : |n.height * v / s| ≤ n.height / 2 := by
    rw [abs_div, abs_mul, abs_of_pos hh, abs_of_pos hspos, div_le_iff₀ hspos]
    nlinarith
  have hedge : |n.width * u / s| = n.width / 2 ∨ |n.height * v / s| = n.height / 2 := by
    rcases max_cases |u| |v| with ⟨hm, hml⟩ | ⟨hm, hml⟩
    · left
      have hu0 : |u| ≠ 0 := by
        intro h0
        rw [hmax, hm, h0] at hspos
        simp at hspos
      rw [abs_div, abs_mul, abs_of_pos hw, abs_of_pos hspos, hmax, hm]
      rw [div_eq_iff (by positivity)]
      have : |u| ≠ 0 := hu0
      field_simp
      ring
    · right
      have hv0 : |v| ≠ 0 := by
        intro h0
        rw [hmax, hm, h0] at hspos
        simp at hspos
      rw [abs_div, abs_mul, abs_of_pos hh, abs_of_pos hspos, hmax, hm]
      rw [div_eq_iff (by positivity)]
      field_simp
      ring
  refine ⟨_, hval, ?_, ?_⟩
  · have hx := abs_le.mp hxabs
    have hy := abs_le.mp hyabs
    refine ⟨by linarith [hx.1], by linarith [hx.2], by linarith [hy.1], by linarith [hy.2]⟩
  · rcases hedge with h | h
    · rcases abs_eq (by linarith : (0:ℚ) ≤ n.width / 2) |>.mp h with h2 | h2
      · right; left; simp only []; linarith
      · left; simp only []; linarith
    · rcases abs_eq (by linarith : (0:ℚ) ≤ n.height / 2) |>.mp h with h2 | h2
      · right; right; right; simp only []; linarith
      · right; right; left; simp only []; linarith

/-- C1 witness: the amended perimeter property evaluated on the concrete
nodes nodeA and nodeB. -/
theorem c1_diamond_witness :
    (0 : ℚ) < nodeA.width ∧ (0 : ℚ) < nodeA.height ∧
      (nodeB.x ≠ nodeA.x ∨ nodeB.y ≠ nodeA.y) ∧
      ∃ p : Point, getNodeIntersection nodeA nodeB = some p ∧
        onRectPerimeter p.x p.y nodeA :=
  ⟨by norm_num [nodeA], by norm_num [nodeA], Or.inl (by norm_num [nodeA, nodeB]),
    c1_diamond_intersection_on_perimeter nodeA nodeB (by norm_num [nodeA])
      (by norm_num [nodeA]) (Or.inl (by norm_num [nodeA, nodeB]))⟩

/-! ### Claim C6: identical centers -/

/-- Math.atan2(0, 0) is 0, like Complex.arg 0. -/
lemma atan2_zero_zero : atan2 0 0 = 0 := by
  unfold atan2
  have h0 : (⟨0, 0⟩ : ℂ) = 0 := by
    apply Complex.ext <;> simp
  rw [h0, Complex.arg_zero]

/-- Math.atan2(0, x) is 0 for nonnegative x. -/
lemma atan2_zero_of_nonneg (x : ℝ) (hx : 0 ≤ x) : atan2 0 x = 0 := by
  unfold atan2
  rw [Complex.arg_eq_zero_iff]
  exact ⟨hx, rfl⟩

/-- Concrete node at the origin, 100 x 60. -/
def nodeC : Node := ⟨"C", 0, 0, 100, 60⟩

/-- Concrete node at the same position and of the same size as nodeC. -/
def nodeD : Node := ⟨"D", 0, 0, 100, 60⟩

/-- C6 counterexample: for two nodes with identical centers the atan2-based
getNodeIntersection returns the midpoint (100, 30) of the node's right edge,
not the top-center point (50, 0); and the diamond-projection version divides
by zero there, which in JavaScript produces NaN coordinates (modelled none)
rather than any point. -/
theorem c6_identical_centers_not_top_center :
    getNodeIntersectionAtan2 nodeC nodeD = ⟨100, 30⟩ ∧
      topCenter nodeC = ⟨50, 0⟩ ∧
      ((100 : ℝ) ≠ 50 ∨ (30 : ℝ) ≠ 0) ∧
      getNodeIntersection nodeC nodeD = none := by
  refine ⟨?_, ?_, Or.inl (by norm_num), ?_⟩
  · simp only [getNodeIntersectionAtan2, nodeC, nodeD]
    norm_num
    rw [atan2_zero_zero]
    norm_num
  · simp only [topCenter, nodeC]
    norm_num
  · simp [getNodeIntersection, nodeC, nodeD]

/-- C6 amended: when fromNode and towardNode have identical centers, the
atan2-based getNodeIntersection returns the midpoint of fromNode's right
edge, center + (width/2, 0) — a stable fallback, but the right-center rather
than the claimed top-center — while the diamond-projection version yields
NaN coordinates (none) when the two positions coincide. -/
theorem c6_identical_centers_right_center (n t : Node)
    (hcx : n.x + n.width / 2 = t.x + t.width / 2)
    (hcy : n.y + n.height / 2 = t.y + t.height / 2) :
    getNodeIntersectionAtan2 n t =
      ⟨(n.x : ℝ) + (n.width : ℝ) / 2 + (n.width : ℝ) / 2,
        (n.y : ℝ) + (n.height : ℝ) / 2⟩ ∧
      (n.x = t.x → n.y = t.y → getNodeIntersection n t = none) := by
  constructor
  · have hdx : (t.x : ℝ) + (t.width : ℝ) / 2 - ((n.x : ℝ) + (n.width : ℝ) / 2) = 0 := by
      have hc : ((n.x + n.width / 2 : ℚ) : ℝ) = ((t.x + t.width / 2 : ℚ) : ℝ) := by
        rw [hcx]
      push_cast at hc
      linarith
    have hdy : (t.y : ℝ) + (t.height : ℝ) / 2 - ((n.y : ℝ) + (n.height : ℝ) / 2) = 0 := by
      have hc : ((n.y + n.height / 2 : ℚ) : ℝ) = ((t.y + t.height / 2 : ℚ) : ℝ) := by
        rw [hcy]
      push_cast at hc
      linarith
    simp only [getNodeIntersectionAtan2]
    rw [hdx, hdy, atan2_zero_zero]
    simp [Real.cos_zero, Real.sin_zero]
  · intro hx hy
    simp [getNodeIntersection, hx, hy]

/-- C6 witness: the amended degenerate-fallback behavior evaluated on the
concrete identical nodes nodeC and nodeD. -/
theorem c6_identical_centers_witness :
    (nodeC.x + nodeC.width / 2 = nodeD.x + nodeD.width / 2) ∧
      (nodeC.y + nodeC.height / 2 = nodeD.y + nodeD.height / 2) ∧
      (getNodeIntersectionAtan2 nodeC nodeD =
        ⟨(nodeC.x : ℝ) + (nodeC.width : ℝ) / 2 + (nodeC.width : ℝ) / 2,
          (nodeC.y : ℝ) + (nodeC.height : ℝ) / 2⟩ ∧
        (nodeC.x = nodeD.x → nodeC.y = nodeD.y → getNodeIntersection nodeC nodeD = none)) :=
  ⟨by norm_num [nodeC, nodeD], by norm_num [nodeC, nodeD],
    c6_identical_centers_right_center nodeC nodeD (by norm_num [nodeC, nodeD])
      (by norm_num [nodeC, nodeD])⟩

/-! ### Claim C2: three parallel connectors -/

/-- First of three concrete parallel edges between nodeA and nodeB. -/
def edgeAB1 : Edge := ⟨"e1", "A", "B", none⟩

/-- Second of three concrete parallel edges between nodeA and nodeB. -/
def edgeAB2 : Edge := ⟨"e2", "A", "B", none⟩

/-- Third of three concrete parallel edges between nodeA and nodeB. -/
def edgeAB3 : Edge := ⟨"e3", "A", "B", none⟩

/-- The concrete edge list with exactly three parallel edges. -/
def edges3 : List Edge := [edgeAB1, edgeAB2, edgeAB3]

/-- C2 counterexample: with three parallel connectors the spacing is
max(8 - 3, 2) = 5, not 2, so the first connector receives the perpendicular
offset (0, 5) between the horizontally separated nodes nodeA and nodeB — an
offset magnitude of 5, outside the claimed set of magnitudes with absolute
value at most 2. -/
theorem c2_three_parallel_spacing_is_five :
    max (MAX_EDGE_SPACING - 3) MIN_EDGE_SPACING = 5 ∧
      (5 : ℚ) ≠ 2 ∧
      calculateParallelOffset nodeA nodeB "e1" edges3 = ⟨⟨0, 5⟩, ⟨0, 5⟩⟩ ∧
      ¬ ((5 : ℝ) = -2 ∨ (5 : ℝ) = 0 ∨ (5 : ℝ) = 2) := by
  refine ⟨by norm_num [MAX_EDGE_SPACING, MIN_EDGE_SPACING], by norm_num, ?_, by norm_num⟩
  have hfilter : parallelEdgesOf nodeA nodeB edges3 = edges3 := by decide
  have hidx : jsFindIndex (fun e => e.id == "e1") edges3 = 0 := by decide
  simp only [calculateParallelOffset, hfilter, hidx]
  rw [if_neg (by norm_num [edges3, edgeAB1, edgeAB2, edgeAB3])]
  have hoff : (signedSlot ((0 : ℤ) : ℚ) edges3.length *
      max (MAX_EDGE_SPACING - (edges3.length : ℚ)) MIN_EDGE_SPACING : ℚ) = -5 := by
    norm_num [signedSlot, MAX_EDGE_SPACING, MIN_EDGE_SPACING, edges3]
  rw [hoff]
  have hdx : (nodeB.x : ℝ) - (nodeA.x : ℝ) = 200 := by norm_num [nodeA, nodeB]
  have hdy : (nodeB.y : ℝ) - (nodeA.y : ℝ) = 0 := by norm_num [nodeA, nodeB]
  rw [hdx, hdy, atan2_zero_of_nonneg 200 (by norm_num)]
  simp [Real.cos_zero, Real.sin_zero]

/-- C2 amended: for exactly three parallel connectors between one node pair
the disambiguator uses spacing max(8 - 3, 2) = 5 and assigns the connector at
index i of the parallel list the signed slot i - 1 (the slots -1, 0, 1), so
the perpendicular offset magnitudes are -5, 0, 5 — not 2. -/
theorem c2_three_parallel_slots (source target : Node) (edgeId : String)
    (edges : List Edge)
    (h3 : (parallelEdgesOf source target edges).length = 3) :
    calculateParallelOffset source target edgeId edges =
      (let angle := atan2 ((target.y : ℝ) - (source.y : ℝ)) ((target.x : ℝ) - (source.x : ℝ))
       let offset := ((((jsFindIndex (fun e => e.id == edgeId)
          (parallelEdgesOf source target edges) : ℤ) : ℚ) - 1) * 5 : ℚ)
       ⟨⟨Real.sin angle * (offset : ℝ), -Real.cos angle * (offset : ℝ)⟩,
        ⟨Real.sin angle * (offset : ℝ), -Real.cos angle * (offset : ℝ)⟩⟩) := by
  simp only [calculateParallelOffset, h3]
  rw [if_neg (by norm_num)]
  have hoff : (signedSlot ((jsFindIndex (fun e => e.id == edgeId)
        (parallelEdgesOf source target edges) : ℤ) : ℚ) 3 *
      max (MAX_EDGE_SPACING - ((3 : ℕ) : ℚ)) MIN_EDGE_SPACING : ℚ) =
      (((jsFindIndex (fun e => e.id == edgeId)
        (parallelEdgesOf source target edges) : ℤ) : ℚ) - 1) * 5 := by
    norm_num [signedSlot, MAX_EDGE_SPACING, MIN_EDGE_SPACING]
  rw [hoff]

/-- C2 witness: the amended slot/spacing rule applied to the concrete
three-edge configuration. -/
theorem c2_three_parallel_slots_witness :
    (parallelEdgesOf nodeA nodeB edges3).length = 3 ∧
      calculateParallelOffset nodeA nodeB "e2" edges3 =
        (let angle := atan2 ((nodeB.y : ℝ) - (nodeA.y : ℝ)) ((nodeB.x : ℝ) - (nodeA.x : ℝ))
         let offset := ((((jsFindIndex (fun e => e.id == "e2")
            (parallelEdgesOf nodeA nodeB edges3) : ℤ) : ℚ) - 1) * 5 : ℚ)
         ⟨⟨Real.sin angle * (offset : ℝ), -Real.cos angle * (offset : ℝ)⟩,
          ⟨Real.sin angle * (offset : ℝ), -Real.cos angle * (offset : ℝ)⟩⟩) :=
  ⟨by decide, c2_three_parallel_slots nodeA nodeB "e2" edges3 (by decide)⟩

/-! ### Claim C7: shared-origin offset axis -/

/-- The slot-times-spacing offset value calculate90DegreeOffset computes in
its non-degenerate branch (signedSlot of the edge's index among the edges
sharing the source, times the halved spacing budget). -/
def sharedSourceOffsetValue (source : Node) (edgeId : String) (edges : List Edge) : ℚ :=
  signedSlot ((jsFindIndex (fun e => e.id == edgeId) (sourceEdgesOf source edges) : ℤ) : ℚ)
      (sourceEdgesOf source edges).length *
    max (MAX_EDGE_SPACING / 2 - ((sourceEdgesOf source edges).length : ℚ)) MIN_EDGE_SPACING

/-- C7: when at least two edges share the source node, calculate90DegreeOffset
returns the vertical-form offset (0, offset) exactly for the
more-horizontal-than-vertical or explicit right/left cases, and the
horizontal-form offset (offset, 0) otherwise; whenever the offset value is
nonzero, a zero x component characterizes that condition. -/
theorem c7_offset_axis_matches_direction (source target : Node) (edgeId : String)
    (edges : List Edge) (direction : EdgeDirection)
    (h2 : 2 ≤ (sourceEdgesOf source edges).length) :
    ((|target.x - source.x| > |target.y - source.y| ∨
        direction = EdgeDirection.right ∨ direction = EdgeDirection.left) →
      calculate90DegreeOffset source target edgeId edges direction =
        ⟨⟨0, sharedSourceOffsetValue source edgeId edges⟩,
          ⟨0, sharedSourceOffsetValue source edgeId edges⟩⟩) ∧
    (¬ (|target.x - source.x| > |target.y - source.y| ∨
        direction = EdgeDirection.right ∨ direction = EdgeDirection.left) →
      calculate90DegreeOffset source target edgeId edges direction =
        ⟨⟨sharedSourceOffsetValue source edgeId edges, 0⟩,
          ⟨sharedSourceOffsetValue source edgeId edges, 0⟩⟩) ∧
    (sharedSourceOffsetValue source edgeId edges ≠ 0 →
      ((calculate90DegreeOffset source target edgeId edges direction).sourceOffset.x = 0 ↔
        (|target.x - source.x| > |target.y - source.y| ∨
          direction = EdgeDirection.right ∨ direction = EdgeDirection.left))) := by
  have hb : (decide (|target.x - source.x| > |target.y - source.y|) ||
      direction == EdgeDirection.right || direction == EdgeDirection.left) = true ↔
      (|target.x - source.x| > |target.y - source.y| ∨
        direction = EdgeDirection.right ∨ direction = EdgeDirection.left) := by
    simp [Bool.or_eq_true, decide_eq_true_eq, or_assoc]
  have hnot : ¬ ((sourceEdgesOf source edges).length ≤ 1) := by omega
  refine ⟨?_, ?_, ?_⟩
  · intro hc
    simp only [calculate90DegreeOffset, if_neg hnot, if_pos (hb.mpr hc)]
    simp [sharedSourceOffsetValue]
  · intro hc
    have hfalse : ¬ ((decide (|target.x - source.x| > |target.y - source.y|) ||
        direction == EdgeDirection.right || direction == EdgeDirection.left) = true) :=
      fun h => hc (hb.mp h)
    simp only [calculate90DegreeOffset, if_neg hnot, if_neg hfalse]
    simp [sharedSourceOffsetValue]
  · intro hoff
    by_cases hc : |target.x - source.x| > |target.y - source.y| ∨
        direction = EdgeDirection.right ∨ direction = EdgeDirection.left
    · simp only [calculate90DegreeOffset, if_neg hnot, if_pos (hb.mpr hc)]
      simpa using hc
    · have hfalse : ¬ ((decide (|target.x - source.x| > |target.y - source.y|) ||
          direction == EdgeDirection.right || direction == EdgeDirection.left) = true) :=
        fun h => hc (hb.mp h)
      simp only [calculate90DegreeOffset, if_neg hnot, if_neg hfalse]
      simp only [sharedSourceOffsetValue] at hoff
      simpa [hoff] using hc

/-- C7 witness: the axis rule evaluated on the concrete configuration of
three edges sharing nodeA as source, with direction right. -/
theorem c7_offset_axis_witness :
    2 ≤ (sourceEdgesOf nodeA edges3).length ∧
      calculate90DegreeOffset nodeA nodeB "e1" edges3 EdgeDirection.right =
        ⟨⟨0, -2⟩, ⟨0, -2⟩⟩ := by
  refine ⟨by decide, ?_⟩
  have h := (c7_offset_axis_matches_direction nodeA nodeB "e1" edges3 EdgeDirection.right
      (by decide)).1 (Or.inr (Or.inl rfl))
  rw [h]
  have hsrc : sourceEdgesOf nodeA edges3 = edges3 := by decide
  have hidx : jsFindIndex (fun e => e.id == "e1") edges3 = 0 := by decide
  have hval : sharedSourceOffsetValue nodeA "e1" edges3 = -2 := by
    simp only [sharedSourceOffsetValue, hsrc, hidx]
    norm_num [signedSlot, MAX_EDGE_SPACING, MIN_EDGE_SPACING, edges3]
  rw [hval]

/-! ### Claim C8: parallel fan-out symmetry and distinctness -/

/-- Gauss sum over ℚ, in the form the slot symmetry needs. -/
lemma qsum_range_id (N : ℕ) : ∑ i in Finset.range N, (i : ℚ) = N * ((N : ℚ) - 1) / 2 := by
  induction N with
  | zero => simp
  | succ n ih =>
    rw [Finset.sum_range_succ, ih]
    push_cast
    ring

/-- The signed slots of N parallel edges sum to zero. -/
lemma sum_signedSlot (N : ℕ) : ∑ i in Finset.range N, signedSlot (i : ℚ) N = 0 := by
  simp only [signedSlot, Finset.sum_sub_distrib, Finset.sum_const, Finset.card_range,
    qsum_range_id]
  ring

/-- A present id is found by findIdx within bounds. -/
lemma findIdx_lt_of_id_mem (l : List Edge) (i : String)
    (h : ∃ e ∈ l, e.id = i) :
    l.findIdx (fun e => e.id == i) < l.length := by
  refine List.findIdx_lt_length_of_exists ?_
  obtain ⟨e, he, hid⟩ := h
  exact ⟨e, he, by simp [hid]⟩

/-- The edge found by findIdx for an id predicate carries that id. -/
lemma findIdx_id_eq (l : List Edge) (i : String)
    (h : l.findIdx (fun e => e.id == i) < l.length) :
    (l.get ⟨l.findIdx (fun e => e.id == i), h⟩).id = i := by
  have := @List.findIdx_getElem _ (fun e => e.id == i) l h
  simpa using this

/-- C8: the signed slots of any N ≥ 2 parallel connectors sum to zero, and two
connectors with distinct ids that both occur in the parallel set never
receive the same offset vector from calculateParallelOffset. -/
theorem c8_fanout_symmetric_and_injective :
    (∀ N : ℕ, 2 ≤ N → ∑ i in Finset.range N, signedSlot (i : ℚ) N = 0) ∧
    (∀ (source target : Node) (edges : List Edge) (id1 id2 : String),
      id1 ≠ id2 →
      (∃ e ∈ parallelEdgesOf source target edges, e.id = id1) →
      (∃ e ∈ parallelEdgesOf source target edges, e.id = id2) →
      2 ≤ (parallelEdgesOf source target edges).length →
      calculateParallelOffset source target id1 edges ≠
        calculateParallelOffset source target id2 edges) := by
  constructor
  · intro N _
    exact sum_signedSlot N
  · intro s t edges id1 id2 hne h1 h2 hlen heq
    have hi1 : (parallelEdgesOf s t edges).findIdx (fun e => e.id == id1) <
        (parallelEdgesOf s t edges).length := findIdx_lt_of_id_mem _ _ h1
    have hi2 : (parallelEdgesOf s t edges).findIdx (fun e => e.id == id2) <
        (parallelEdgesOf s t edges).length := findIdx_lt_of_id_mem _ _ h2
    have hidx_ne : (parallelEdgesOf s t edges).findIdx (fun e => e.id == id1) ≠
        (parallelEdgesOf s t edges).findIdx (fun e => e.id == id2) := by
      intro hEq
      apply hne
      have e1 := findIdx_id_eq (parallelEdgesOf s t edges) id1 hi1
      have e2 := findIdx_id_eq (parallelEdgesOf s t edges) id2 hi2
      rw [← e1, ← e2]
      congr 1
      refine congrArg _ ?_
      apply Fin.val_injective
      exact hEq
    have hnot : ¬ ((parallelEdgesOf s t edges).length ≤ 1) := by omega
    simp only [calculateParallelOffset, if_neg hnot, REdgeOffsets.mk.injEq,
      RPoint.mk.injEq] at heq
    obtain ⟨⟨hsin, hcos⟩, -⟩ := heq
    set a := atan2 ((t.y : ℝ) - (s.y : ℝ)) ((t.x : ℝ) - (s.x : ℝ)) with ha
    set o1 : ℚ := signedSlot ((jsFindIndex (fun e => e.id == id1)
        (parallelEdgesOf s t edges) : ℤ) : ℚ) (parallelEdgesOf s t edges).length *
      max (MAX_EDGE_SPACING - ((parallelEdgesOf s t edges).length : ℚ)) MIN_EDGE_SPACING with ho1
    set o2 : ℚ := signedSlot ((jsFindIndex (fun e => e.id == id2)
        (parallelEdgesOf s t edges) : ℤ) : ℚ) (parallelEdgesOf s t edges).length *
      max (MAX_EDGE_SPACING - ((parallelEdgesOf s t edges).length : ℚ)) MIN_EDGE_SPACING with ho2
    have hoq : o1 = o2 := by
      by_contra hno
      have hd : ((o1 : ℝ)) - ((o2 : ℝ)) ≠ 0 := by
        rw [sub_ne_zero]
        exact_mod_cast hno
      have hs0 : Real.sin a = 0 := by
        have hz : Real.sin a * ((o1 : ℝ) - (o2 : ℝ)) = 0 := by
          rw [mul_sub, sub_eq_zero]
          exact hsin
        rcases mul_eq_zero.mp hz with h | h
        · exact h
        · exact absurd h hd
      have hc0 : Real.cos a = 0 := by
        have hz : Real.cos a * ((o1 : ℝ) - (o2 : ℝ)) = 0 := by
          rw [mul_sub, sub_eq_zero]
          have := hcos
          linarith
        rcases mul_eq_zero.mp hz with h | h
        · exact h
        · exact absurd h hd
      have hpyth := Real.sin_sq_add_cos_sq a
      rw [hs0, hc0] at hpyth
      norm_num at hpyth
    have hsp : (0 : ℚ) < max (MAX_EDGE_SPACING - ((parallelEdgesOf s t edges).length : ℚ))
        MIN_EDGE_SPACING :=
      lt_of_lt_of_le (by norm_num [MIN_EDGE_SPACING]) (le_max_right _ _)
    rw [ho1, ho2] at hoq
    have hslot := mul_right_cancel₀ (ne_of_gt hsp) hoq
    simp only [signedSlot, sub_left_inj] at hslot
    have hjq : (jsFindIndex (fun e => e.id == id1) (parallelEdgesOf s t edges) : ℤ) =
        (jsFindIndex (fun e => e.id == id2) (parallelEdgesOf s t edges) : ℤ) := by
      exact_mod_cast hslot
    rw [jsFindIndex, jsFindIndex, if_pos hi1, if_pos hi2] at hjq
    exact hidx_ne (by exact_mod_cast hjq)

/-- C8 witness: slot symmetry at N = 3 and offset distinctness for the first
two of the three concrete parallel edges. -/
theorem c8_fanout_witness :
    ((2 ≤ 3 ∧ ∑ i in Finset.range 3, signedSlot (i : ℚ) 3 = 0) ∧
      ("e1" ≠ "e2" ∧
        calculateParallelOffset nodeA nodeB "e1" edges3 ≠
          calculateParallelOffset nodeA nodeB "e2" edges3)) :=
  ⟨⟨by norm_num, c8_fanout_symmetric_and_injective.1 3 (by norm_num)⟩,
    ⟨by decide,
      c8_fanout_symmetric_and_injective.2 nodeA nodeB edges3 "e1" "e2" (by decide)
        ⟨edgeAB1, by decide, by decide⟩ ⟨edgeAB2, by decide, by decide⟩ (by decide)⟩⟩

/-! ### Claim C4: straight fallback and one-time warning -/

/-- One render pass either leaves the dedup state unchanged without warning,
or warns exactly when its key was absent and records it. -/
lemma renderPass_state (s t : Node) (id : String) (es : List Edge)
    (d : EdgeDirection) (shown : List String) :
    ((renderPass s t id es d shown).2.1 = false ∧
      (renderPass s t id es d shown).2.2 = shown) ∨
    ((renderPass s t id es d shown).2.1 = true ∧ warningKey id d.str ∉ shown ∧
      (renderPass s t id es d shown).2.2 = warningKey id d.str :: shown) := by
  cases hm : calculate90DegreePath
      ((getEdgeParams s t).sx + (calculate90DegreeOffset s t id es d).sourceOffset.x)
      ((getEdgeParams s t).sy + (calculate90DegreeOffset s t id es d).sourceOffset.y)
      ((getEdgeParams s t).tx + (calculate90DegreeOffset s t id es d).targetOffset.x)
      ((getEdgeParams s t).ty + (calculate90DegreeOffset s t id es d).targetOffset.y)
      d (calculate90DegreeOffset s t id es d).sourceOffset
      (calculate90DegreeOffset s t id es d).targetOffset with
  | none =>
    by_cases hk : warningKey id d.str ∈ shown
    · left
      simp [renderPass, hm, showWarningOnce, hk]
    · right
      simp [renderPass, hm, showWarningOnce, hk]
  | some p =>
    left
    simp [renderPass, hm]

/-- Once a key is in the dedup state, no later pass emits it again. -/
lemma runPasses_count_zero (id : String)
    (passes : List (Node × Node × List Edge × EdgeDirection))
    (shown : List String) (k : String) (hk : k ∈ shown) :
    ((runPasses id passes shown).1.count k) = 0 := by
  induction passes generalizing shown with
  | nil => simp [runPasses]
  | cons p rest ih =>
    obtain ⟨s, t, es, d⟩ := p
    rcases renderPass_state s t id es d shown with ⟨hw, hst⟩ | ⟨hw, hnk, hst⟩
    · simp only [runPasses, hw, hst, Bool.false_eq_true, if_false, List.nil_append]
      exact ih shown hk
    · have hne : k ≠ warningKey id d.str := fun h => hnk (h ▸ hk)
      simp only [runPasses, hw, hst, if_true, List.singleton_append, List.count_cons]
      rw [ih (warningKey id d.str :: shown) (List.mem_cons_of_mem _ hk)]
      simp [Ne.symm hne]

/-- Across any sequence of render passes the warning for a given key is
emitted at most once. -/
lemma runPasses_count_le_one (id : String)
    (passes : List (Node × Node × List Edge × EdgeDirection))
    (shown : List String) (k : String) :
    ((runPasses id passes shown).1.count k) ≤ 1 := by
  induction passes generalizing shown with
  | nil => simp [runPasses]
  | cons p rest ih =>
    obtain ⟨s, t, es, d⟩ := p
    rcases renderPass_state s t id es d shown with ⟨hw, hst⟩ | ⟨hw, hnk, hst⟩
    · simp only [runPasses, hw, hst, Bool.false_eq_true, if_false, List.nil_append]
      exact ih shown
    · simp only [runPasses, hw, hst, if_true, List.singleton_append, List.count_cons]
      by_cases hk : k = warningKey id d.str
      · rw [hk, runPasses_count_zero id rest (warningKey id d.str :: shown)
          (warningKey id d.str) (List.mem_cons_self _ _)]
        simp
      · rw [if_neg (by simp [Ne.symm hk])]
        simpa using ih (warningKey id d.str :: shown)

/-- C4: when the feasibility check rejects the requested angle route (the
two-segment path builder returns none on the offset endpoints), the rendered
path is exactly the straight path between the offset endpoints; and across
repeated render passes of one connector instance each (id, direction)
warning key is emitted at most once. -/
theorem c4_fallback_straight_and_warning_once :
    (∀ (s t : Node) (id : String) (edges : List Edge) (d : EdgeDirection)
        (shown : List String),
      calculate90DegreePath
          ((getEdgeParams s t).sx + (calculate90DegreeOffset s t id edges d).sourceOffset.x)
          ((getEdgeParams s t).sy + (calculate90DegreeOffset s t id edges d).sourceOffset.y)
          ((getEdgeParams s t).tx + (calculate90DegreeOffset s t id edges d).targetOffset.x)
          ((getEdgeParams s t).ty + (calculate90DegreeOffset s t id edges d).targetOffset.y)
          d (calculate90DegreeOffset s t id edges d).sourceOffset
          (calculate90DegreeOffset s t id edges d).targetOffset = none →
      (renderPass s t id edges d shown).1 =
        getStraightPath
          ((getEdgeParams s t).sx + (calculate90DegreeOffset s t id edges d).sourceOffset.x)
          ((getEdgeParams s t).sy + (calculate90DegreeOffset s t id edges d).sourceOffset.y)
          ((getEdgeParams s t).tx + (calculate90DegreeOffset s t id edges d).targetOffset.x)
          ((getEdgeParams s t).ty + (calculate90DegreeOffset s t id edges d).targetOffset.y)) ∧
    (∀ (id : String) (passes : List (Node × Node × List Edge × EdgeDirection))
        (shown : List String) (k : String),
      ((runPasses id passes shown).1.count k) ≤ 1) := by
  constructor
  · intro s t id edges d shown h
    simp [renderPass, h]
  · exact runPasses_count_le_one

/-- C4 witness: the requested left-angle route between nodeA and nodeB is
infeasible, the rendered path is the straight fallback, and two repeated
passes emit the warning key at most once. -/
theorem c4_fallback_witness :
    calculate90DegreePath
        ((getEdgeParams nodeA nodeB).sx +
          (calculate90DegreeOffset nodeA nodeB "e1" edges3 EdgeDirection.left).sourceOffset.x)
        ((getEdgeParams nodeA nodeB).sy +
          (calculate90DegreeOffset nodeA nodeB "e1" edges3 EdgeDirection.left).sourceOffset.y)
        ((getEdgeParams nodeA nodeB).tx +
          (calculate90DegreeOffset nodeA nodeB "e1" edges3 EdgeDirection.left).targetOffset.x)
        ((getEdgeParams nodeA nodeB).ty +
          (calculate90DegreeOffset nodeA nodeB "e1" edges3 EdgeDirection.left).targetOffset.y)
        EdgeDirection.left
        (calculate90DegreeOffset nodeA nodeB "e1" edges3 EdgeDirection.left).sourceOffset
        (calculate90DegreeOffset nodeA nodeB "e1" edges3 EdgeDirection.left).targetOffset = none ∧
      (renderPass nodeA nodeB "e1" edges3 EdgeDirection.left []).1 =
        getStraightPath
          ((getEdgeParams nodeA nodeB).sx +
            (calculate90DegreeOffset nodeA nodeB "e1" edges3 EdgeDirection.left).sourceOffset.x)
          ((getEdgeParams nodeA nodeB).sy +
            (calculate90DegreeOffset nodeA nodeB "e1" edges3 EdgeDirection.left).sourceOffset.y)
          ((getEdgeParams nodeA nodeB).tx +
            (calculate90DegreeOffset nodeA nodeB "e1" edges3 EdgeDirection.left).targetOffset.x)
          ((getEdgeParams nodeA nodeB).ty +
            (calculate90DegreeOffset nodeA nodeB "e1" edges3 EdgeDirection.left).targetOffset.y) ∧
      (runPasses "e1" [(nodeA, nodeB, edges3, EdgeDirection.left),
        (nodeA, nodeB, edges3, EdgeDirection.left)] []).1.count (warningKey "e1" "left") ≤ 1 := by
  have hsrc : sourceEdgesOf nodeA edges3 = edges3 := by decide
  have hidx : jsFindIndex (fun e => e.id == "e1") edges3 = 0 := by decide
  have hoff : calculate90DegreeOffset nodeA nodeB "e1" edges3 EdgeDirection.left =
      ⟨⟨0, -2⟩, ⟨0, -2⟩⟩ := by
    simp only [calculate90DegreeOffset, hsrc, hidx]
    norm_num [signedSlot, MAX_EDGE_SPACING, MIN_EDGE_SPACING, edges3, nodeA, nodeB]
  have hparams : getEdgeParams nodeA nodeB = ⟨50, 30, 250, 30⟩ := by
    norm_num [getEdgeParams, getNodeCenter, nodeA, nodeB]
  have h_none : calculate90DegreePath
      ((getEdgeParams nodeA nodeB).sx +
        (calculate90DegreeOffset nodeA nodeB "e1" edges3 EdgeDirection.left).sourceOffset.x)
      ((getEdgeParams nodeA nodeB).sy +
        (calculate90DegreeOffset nodeA nodeB "e1" edges3 EdgeDirection.left).sourceOffset.y)
      ((getEdgeParams nodeA nodeB).tx +
        (calculate90DegreeOffset nodeA nodeB "e1" edges3 EdgeDirection.left).targetOffset.x)
      ((getEdgeParams nodeA nodeB).ty +
        (calculate90DegreeOffset nodeA nodeB "e1" edges3 EdgeDirection.left).targetOffset.y)
      EdgeDirection.left
      (calculate90DegreeOffset nodeA nodeB "e1" edges3 EdgeDirection.left).sourceOffset
      (calculate90DegreeOffset nodeA nodeB "e1" edges3 EdgeDirection.left).targetOffset = none := by
    rw [hoff, hparams]
    simp only [calculate90DegreePath, canCreate90DegreeAngle]
    norm_num [MIN_ANGLE_DISTANCE]
  exact ⟨h_none,
    (c4_fallback_straight_and_warning_once.1 nodeA nodeB "e1" edges3 EdgeDirection.left [] h_none),
    (c4_fallback_straight_and_warning_once.2 "e1" _ [] _)⟩

end NetTopo
